import Mathlib

/-!
# BuildSmart Invoice System — verification development

Shallow embedding of the invoice domain core of `src/main.py`
(BuildSmart Invoice System): the totals calculator, the item
serializer (`str`/`eval` on lists of tuples), the dual document
renderers, and the sqlite-backed repository operations, together
with proofs of the specified properties.

Python floats are modelled as exact rationals (`ℚ`); the spec states
its arithmetic laws "within floating tolerance", and every law proved
here is exact at that level of abstraction.  All parsing and
serialization functions are written with structural recursion over
character lists so that concrete runs reduce inside the kernel.
-/

/-- Characters used by the serializer, named to keep source text free of
quote-character literals. -/
def squote : Char := Char.ofNat 39

/-- Double-quote character. -/
def dquote : Char := Char.ofNat 34

/-- Backslash character. -/
def bslash : Char := Char.ofNat 92

/-- Decimal digit value of a character (meaningful when `c.isDigit`). -/
def charDigit (c : Char) : ℕ := c.toNat - 48

/-- Little-endian decimal digits of `n`, with explicit fuel so that the
recursion is structural (the kernel can evaluate it). -/
def natDigitsAux : ℕ → ℕ → List ℕ
  | 0, _ => []
  | _, 0 => []
  | fuel+1, n => (n % 10) :: natDigitsAux fuel (n / 10)

/-- Little-endian decimal digits of `n` (empty for `0`). -/
def natDigits (n : ℕ) : List ℕ := natDigitsAux n n

/-- Value of a little-endian decimal digit list. -/
def ofDigitsLE : List ℕ → ℕ
  | [] => 0
  | d :: ds => d + 10 * ofDigitsLE ds

/-- Decimal digit characters of `n`, most significant first; `0` prints
as the single digit `0`. -/
def natChars (n : ℕ) : List Char :=
  if n = 0 then [Char.ofNat 48] else ((natDigits n).map Nat.digitChar).reverse

/-- Decimal string of a natural number, as Python prints it. -/
def natStr (n : ℕ) : String := ⟨natChars n⟩

/-- Big-endian value of a run of digit characters, accumulated the way a
left-to-right scan computes it. -/
def digitsVal (cs : List Char) : ℕ := cs.foldl (fun a c => a * 10 + charDigit c) 0

/-- Split off the longest leading run of decimal digit characters. -/
def takeDigits : List Char → List Char × List Char
  | [] => ([], [])
  | c :: cs =>
    if c.isDigit then
      let p := takeDigits cs
      (c :: p.1, p.2)
    else ([], c :: cs)

/-- Model of Python `str.strip()`: drop ASCII whitespace from both ends.
(`String.trim` is avoided because its substring machinery does not reduce
in the kernel.) -/
def pyStrip (s : String) : String :=
  ⟨(((s.data.dropWhile Char.isWhitespace).reverse.dropWhile Char.isWhitespace).reverse)⟩

/-- Model of Python `float()` on plain decimal literals: optional minus
sign, then digits with an optional fractional part (`"5"`, `"5."`,
`".5"`, `"5.25"`, `"-3"`); `none` models the `ValueError` raised on any
other text.  Exotic float syntax (exponents, `inf`, `nan`, embedded
underscores, surrounding whitespace) is outside the modelled domain. -/
def pyFloat (s : String) : Option ℚ :=
  let signed : Bool × List Char :=
    match s.data with
    | c :: r => if c = Char.ofNat 45 then (true, r) else (false, s.data)
    | [] => (false, [])
  let p1 := takeDigits signed.2
  let body : Option ℚ :=
    match p1.2 with
    | [] => if p1.1 = [] then none else some ((digitsVal p1.1 : ℕ) : ℚ)
    | c :: r =>
      if c = Char.ofNat 46 then
        let p2 := takeDigits r
        if p2.2 = [] ∧ ¬(p1.1 = [] ∧ p2.1 = []) then
          some ((digitsVal p1.1 : ℚ) + (digitsVal p2.1 : ℚ) / 10 ^ p2.1.length)
        else none
      else none
  body.map (fun q => if signed.1 then -q else q)

/-- One row of the items grid of `InvoiceForm`: `QTableWidget.item` yields
`None` for a cell that was never touched, otherwise the cell's text
(`src/main.py` lines 548-550). -/
structure RawRow where
  desc : Option String
  qty : Option String
  price : Option String

/-- A retained line item: description, parsed quantity, parsed unit price. -/
abbrev Item := String × ℚ × ℚ

/-- Tax rate as `calculate_totals` reads it from the tax field
(`float(self.tax_input.text() or 0)` with `ValueError` mapped to `0`,
`src/main.py` lines 561-564). -/
def parsedTaxRate (taxText : String) : ℚ :=
  if taxText = "" then 0 else (pyFloat taxText).getD 0

/-- One iteration of the row loop of `InvoiceForm.calculate_totals`
(`src/main.py` lines 547-559): keep the row only when all three cells
are present and quantity and price both parse as floats, adding its
amount to the running subtotal. -/
def totalsStep (acc : ℚ × List Item) (r : RawRow) : ℚ × List Item :=
  match r.desc, r.qty, r.price with
  | some d, some qs, some ps =>
    match pyFloat qs, pyFloat ps with
    | some q, some p => (acc.1 + q * p, acc.2 ++ [(d, q, p)])
    | _, _ => acc
  | _, _, _ => acc

/-- Model of `InvoiceForm.calculate_totals` (`src/main.py` lines 544-567):
walk the grid rows with `totalsStep`, then derive tax and total from the
parsed tax rate. -/
def calculate_totals (rows : List RawRow) (taxText : String) :
    List Item × ℚ × ℚ × ℚ :=
  let folded := rows.foldl totalsStep (0, [])
  let tax := folded.1 * (parsedTaxRate taxText / 100)
  (folded.2, folded.1, tax, folded.1 + tax)

/-- The rows the spec says the Calculator retains: all three cells
present and both numeric cells parse (spec §4.4 filtering policy). -/
def retainedItems (rows : List RawRow) : List Item :=
  rows.filterMap (fun r =>
    match r.desc, r.qty, r.price with
    | some d, some qs, some ps =>
      match pyFloat qs, pyFloat ps with
      | some q, some p => some (d, q, p)
      | _, _ => none
    | _, _, _ => none)

/-- Sum of per-item amounts `quantity * unit_price`. -/
def sumAmounts (its : List Item) : ℚ := (its.map (fun it => it.2.1 * it.2.2)).sum

/-- Left parenthesis. -/
def lparen : Char := Char.ofNat 40

/-- Right parenthesis. -/
def rparen : Char := Char.ofNat 41

/-- Left square bracket. -/
def lbrack : Char := Char.ofNat 91

/-- Right square bracket. -/
def rbrack : Char := Char.ofNat 93

/-- Comma. -/
def comma : Char := Char.ofNat 44

/-- Space. -/
def spaceChar : Char := Char.ofNat 32

/-- Decimal point. -/
def dotChar : Char := Char.ofNat 46

/-- Smallest number (at least 1) of decimal digits that represents `q`
exactly after the point, i.e. the least `k ≥ 1` with `q.den ∣ 10 ^ k`;
`none` when no such `k ≤ 40` exists (the value has no terminating
decimal expansion, so Python would print it differently). -/
def decScale? (q : ℚ) : Option ℕ :=
  ((List.range 40).map (fun i => i + 1)).find? (fun k => 10 ^ k % q.den == 0)

/-- Little-endian digits of `m` zero-padded to `k` digits, emitted most
significant first. -/
def padDigits (k m : ℕ) : List Char :=
  let ds := natDigits m
  ((ds ++ List.replicate (k - ds.length) 0).map Nat.digitChar).reverse

/-- Model of Python `repr(float)` on non-negative values with a
terminating decimal expansion: the shortest decimal form with at least
one fractional digit (`10.0`, `2.5`, `0.25`), which is what `repr`
prints for floats that are exact short decimals.  Values outside that
domain print as a fallback token that the round-trip law excludes by
hypothesis. -/
def pyFloatRepr (q : ℚ) : String :=
  match decScale? q with
  | some k =>
    let n := q.num.toNat * (10 ^ k / q.den)
    ⟨natChars (n / 10 ^ k) ++ dotChar :: padDigits k (n % 10 ^ k)⟩
  | none => "inf"

/-- Escape one character of a string literal the way Python `repr` does
for printable characters: backslash and the chosen quote are prefixed by
a backslash, everything else passes through. -/
def escapeChar (qc c : Char) : List Char :=
  if c = bslash ∨ c = qc then [bslash, c] else [c]

/-- Quote character Python `repr` picks for a string: single quote,
unless the string contains a single quote and no double quote. -/
def reprQuote (s : String) : Char :=
  if squote ∈ s.data ∧ ¬ dquote ∈ s.data then dquote else squote

/-- Model of Python `repr(str)` on printable text: chosen quote, escaped
body, closing quote. -/
def pyStrRepr (s : String) : String :=
  ⟨reprQuote s :: s.data.flatMap (escapeChar (reprQuote s)) ++ [reprQuote s]⟩

/-- Python `repr` of one `(description, qty, price)` tuple. -/
def pyItemRepr (it : Item) : String :=
  ⟨lparen :: (pyStrRepr it.1).data ++ comma :: spaceChar :: (pyFloatRepr it.2.1).data
    ++ comma :: spaceChar :: (pyFloatRepr it.2.2).data ++ [rparen]⟩

/-- Comma-space separated tuple representations, as `str(list)` joins
its elements. -/
def itemsBody : List Item → List Char
  | [] => []
  | [it] => (pyItemRepr it).data
  | it :: its => (pyItemRepr it).data ++ comma :: spaceChar :: itemsBody its

/-- Model of the item serializer: `str(items)` at `src/main.py` line 590,
where `items` is the list of `(description, qty, price)` tuples produced
by `calculate_totals`. -/
def serializeItems (items : List Item) : String :=
  ⟨lbrack :: itemsBody items ++ [rbrack]⟩

/-- Parse the body of a Python string literal delimited by `qc`: stops at
the unescaped closing quote, understands backslash escapes of backslash
and either quote; anything else after a backslash is rejected. -/
def parseStrBody (qc : Char) : List Char → Option (List Char × List Char)
  | [] => none
  | c :: cs =>
    if c = qc then some ([], cs)
    else if c = bslash then
      match cs with
      | [] => none
      | e :: cs2 =>
        if e = bslash ∨ e = squote ∨ e = dquote then
          (parseStrBody qc cs2).map (fun p => (e :: p.1, p.2))
        else none
    else (parseStrBody qc cs).map (fun p => (c :: p.1, p.2))

/-- Parse a Python string literal opened by either quote character. -/
def parseStrLit (cs : List Char) : Option (String × List Char) :=
  match cs with
  | c :: r =>
    if c = squote ∨ c = dquote then
      (parseStrBody c r).map (fun p => (⟨p.1⟩, p.2))
    else none
  | [] => none

/-- Parse an unsigned float literal of the form `digits.digits`, the
shape `repr(float)` emits for the serialized items. -/
def parseUFloat (cs : List Char) : Option (ℚ × List Char) :=
  let p1 := takeDigits cs
  if p1.1 = [] then none
  else
    match p1.2 with
    | c :: r =>
      if c = dotChar then
        let p2 := takeDigits r
        if p2.1 = [] then none
        else some ((digitsVal p1.1 : ℚ) + (digitsVal p2.1 : ℚ) / 10 ^ p2.1.length, p2.2)
      else none
    | [] => none

/-- Parse one `(description, qty, price)` tuple literal. -/
def parseItem (cs : List Char) : Option (Item × List Char) :=
  match cs with
  | c :: r0 =>
    if c = lparen then
      match parseStrLit r0 with
      | some (d, r1) =>
        match r1 with
        | c1 :: c2 :: r2 =>
          if c1 = comma ∧ c2 = spaceChar then
            match parseUFloat r2 with
            | some (q, r3) =>
              match r3 with
              | c3 :: c4 :: r4 =>
                if c3 = comma ∧ c4 = spaceChar then
                  match parseUFloat r4 with
                  | some (p, r5) =>
                    match r5 with
                    | c5 :: r6 => if c5 = rparen then some ((d, q, p), r6) else none
                    | [] => none
                  | none => none
                else none
              | _ => none
            | none => none
          else none
        | _ => none
      | none => none
    else none
  | [] => none

/-- Parse a non-empty comma-space separated run of tuple literals closed
by the right bracket.  The fuel argument bounds the number of list
elements; the caller passes the character count, which always suffices. -/
def parseItemList : ℕ → List Char → Option (List Item × List Char)
  | fuel, cs =>
    match parseItem cs with
    | none => none
    | some (it, r) =>
      match r with
      | c :: r2 =>
        if c = rbrack then some ([it], r2)
        else
          match r2 with
          | c2 :: r3 =>
            if c = comma ∧ c2 = spaceChar then
              match fuel with
              | 0 => none
              | fuel+1 => (parseItemList fuel r3).map (fun p => (it :: p.1, p.2))
            else none
          | [] => none
      | [] => none

/-- Model of the item deserializer: `eval(blob)` restricted to the
list-of-tuples literal grammar that `str(items)` emits (`src/main.py`
lines 304, 359, 533).  `none` models the exception `eval` raises on a
blob it cannot interpret as such a literal. -/
def deserializeItems (s : String) : Option (List Item) :=
  match s.data with
  | c :: r =>
    if c = lbrack then
      match r with
      | c2 :: r2 =>
        if c2 = rbrack then if r2 = [] then some [] else none
        else
          match parseItemList r.length r with
          | some (its, rest) => if rest = [] then some its else none
          | none => none
      | [] => none
    else none
  | [] => none

/-- Banker's rounding of a rational to the nearest integer, matching the
IEEE rounding Python's string formatting applies. -/
def roundHalfEven (x : ℚ) : ℤ :=
  let f := ⌊x⌋
  if x - f < 1/2 then f
  else if 1/2 < x - f then f + 1
  else if f % 2 = 0 then f else f + 1

/-- Model of the Python format spec `.2f`: two fractional digits, round
half to even. -/
def fmt2 (x : ℚ) : String :=
  let n := roundHalfEven (x * 100)
  let m := n.natAbs
  (if n < 0 then "-" else "") ++ natStr (m / 100) ++ "." ++ (⟨padDigits 2 (m % 100)⟩ : String)

/-- The fields of the `invoice_data` dictionary that the item table and
the totals of both renderings draw on: the stored serialized items blob
and the stored subtotal/tax/total. -/
structure ViewerRecord where
  items : String
  subtotal : ℚ
  tax : ℚ
  total : ℚ

/-- One rendered item row: the description, quantity, rate and amount
cell texts. -/
abbrev RenderedRow := String × String × String × String

/-- Model of the HTML preview built in `InvoiceViewer.__init__`
(`src/main.py` lines 303-306 and 329-331): per item a row with the
description, `str(qty)`, and price and amount formatted `$%.2f`;
then subtotal, tax and total rows formatted `$%.2f` from the stored
fields.  `none` models the exception `eval` raises on a malformed blob:
the constructor has no handler around it. -/
def previewRender (inv : ViewerRecord) :
    Option (List RenderedRow × String × String × String) :=
  (deserializeItems inv.items).map (fun its =>
    (its.map (fun it =>
      (it.1, pyFloatRepr it.2.1, "$" ++ fmt2 it.2.2, "$" ++ fmt2 (it.2.1 * it.2.2))),
     "$" ++ fmt2 inv.subtotal, "$" ++ fmt2 inv.tax, "$" ++ fmt2 inv.total))

/-- Model of the PDF export built in `InvoiceViewer.print_invoice`
(`src/main.py` lines 357-437): per item a row of `str(item)`,
`str(qty)`, and `$%.2f` price and amount cells; then `$%.2f` subtotal,
tax and total cells from the stored fields.  `none` models the exception
`eval` raises on a malformed blob: line 359 has no handler around it. -/
def printRender (inv : ViewerRecord) :
    Option (List RenderedRow × String × String × String) :=
  (deserializeItems inv.items).map (fun its =>
    (its.map (fun it =>
      (it.1, pyFloatRepr it.2.1, "$" ++ fmt2 it.2.2, "$" ++ fmt2 (it.2.1 * it.2.2))),
     "$" ++ fmt2 inv.subtotal, "$" ++ fmt2 inv.tax, "$" ++ fmt2 inv.total))

/-- A cell value of the sqlite store. -/
inductive DbValue
  | nullV
  | intV (n : ℕ)
  | textV (s : String)
  | realV (q : ℚ)
  deriving DecidableEq, Repr

/-- One row of the `invoices` table, with the column set of the
`CREATE TABLE` statement in `init_db` (`src/main.py` lines 31-50). -/
structure InvoiceRow where
  id : ℕ
  invoice_number : String
  client_name : String
  client_address : String
  client_number : String
  description : String
  items : String
  subtotal : ℚ
  tax : ℚ
  total : ℚ
  email : String
  company_name : String
  company_address : String
  company_contact : String
  date_added : String
  date : String
  deriving DecidableEq, Repr

/-- The invoice store: the rows of the `invoices` table in insertion
order. -/
abbrev Store := List InvoiceRow

/-- The text the form widgets hold when `save_invoice` runs, plus the
items grid and the tax field. -/
structure FormData where
  invoice_number : String
  client_name : String
  client_address : String
  client_number : String
  description : String
  email : String
  date : String
  company_name : String
  company_address : String
  company_contact : String
  rows : List RawRow
  taxText : String

/-- Outcome of `save_invoice`: which message box the user would see. -/
inductive SaveResult
  | missingInfo
  | missingItems
  | updated
  | saved
  | duplicate
  deriving DecidableEq, Repr

/-- Fresh surrogate id for an insert (`AUTOINCREMENT`: one more than the
largest id ever used; with no deletions this is `max + 1`). -/
def nextId (store : Store) : ℕ := store.foldl (fun m r => max m r.id) 0 + 1

/-- Model of `InvoiceForm.save_invoice` (`src/main.py` lines 573-619):
trim the fields, reject missing required fields, recompute totals,
reject an empty item list, serialize the items, then either run the
`UPDATE` of lines 599-602 (edit mode) or the `INSERT` of line 612.  The
duplicate branch models the sqlite `UNIQUE` constraint on
`invoice_number` raising `IntegrityError`, which line 618 catches
specifically: the transaction leaves the store unchanged.  The `UPDATE`
sets exactly the columns of its `SET` list; the submitted date is bound
to the `date_added` column (the 13th placeholder), and the `date`
column is not in the list. -/
def save_invoice (store : Store) (f : FormData) (edit_mode : Bool) (now today : String) :
    SaveResult × Store :=
  let number := pyStrip f.invoice_number
  let name := pyStrip f.client_name
  let caddr := pyStrip f.client_address
  let cnum := pyStrip f.client_number
  let desc := pyStrip f.description
  let email := pyStrip f.email
  let date := if pyStrip f.date = "" then today else pyStrip f.date
  if number = "" ∨ name = "" ∨ desc = "" then (.missingInfo, store)
  else
    let t := calculate_totals f.rows f.taxText
    if t.1 = [] then (.missingItems, store)
    else
      let items_str := serializeItems t.1
      let cocoName := pyStrip f.company_name
      let cocoAddr := pyStrip f.company_address
      let cocoContact := pyStrip f.company_contact
      if edit_mode then
        (.updated, store.map (fun r =>
          if r.invoice_number = number then
            { r with
              client_name := name, client_address := caddr, client_number := cnum,
              description := desc, items := items_str, subtotal := t.2.1, tax := t.2.2.1,
              total := t.2.2.2, email := email, company_name := cocoName,
              company_address := cocoAddr, company_contact := cocoContact,
              date_added := date }
          else r))
      else
        if store.any (fun r => r.invoice_number == number) then (.duplicate, store)
        else
          (.saved, store ++ [{
            id := nextId store, invoice_number := number,
            client_name := name, client_address := caddr, client_number := cnum,
            description := desc, items := items_str, subtotal := t.2.1, tax := t.2.2.1,
            total := t.2.2.2, email := email, company_name := cocoName,
            company_address := cocoAddr, company_contact := cocoContact,
            date_added := now, date := date }])

/-- The `SELECT *` result tuple for a row, in the column order of the
`CREATE TABLE` statement (`src/main.py` lines 31-50). -/
def rowTuple (r : InvoiceRow) : List DbValue :=
  [.intV r.id, .textV r.invoice_number, .textV r.client_name, .textV r.client_address,
   .textV r.client_number, .textV r.description, .textV r.items, .realV r.subtotal,
   .realV r.tax, .realV r.total, .textV r.email, .textV r.company_name,
   .textV r.company_address, .textV r.company_contact, .textV r.date_added, .textV r.date]

/-- The `invoice_data` dictionary that `DashboardWidget.open_invoice_details`
builds (`src/main.py` lines 780-793): twelve keys, no `client_address`,
`client_number`, `date_added` or `date` key. -/
structure ViewerDict where
  id : DbValue
  invoice_number : DbValue
  client_name : DbValue
  description : DbValue
  items : DbValue
  subtotal : DbValue
  tax : DbValue
  total : DbValue
  email : DbValue
  company_name : DbValue
  company_address : DbValue
  company_contact : DbValue
  deriving DecidableEq, Repr

/-- Model of `DashboardWidget.open_invoice_details` (`src/main.py` lines
770-795): `SELECT * FROM invoices WHERE id = ?`, `none` when no row
matches (the "Not Found" warning path), otherwise the dictionary built
from the positional tuple with the indices the source uses:
`data[3]` for `description`, `data[4]` for `items`, `data[5]` for
`subtotal`, and so on. -/
def open_invoice_details (store : Store) (invoice_id : ℕ) : Option ViewerDict :=
  match store.find? (fun r => r.id == invoice_id) with
  | none => none
  | some row =>
    let d := rowTuple row
    some { id := d.getD 0 .nullV, invoice_number := d.getD 1 .nullV,
           client_name := d.getD 2 .nullV, description := d.getD 3 .nullV,
           items := d.getD 4 .nullV, subtotal := d.getD 5 .nullV, tax := d.getD 6 .nullV,
           total := d.getD 7 .nullV, email := d.getD 8 .nullV, company_name := d.getD 9 .nullV,
           company_address := d.getD 10 .nullV, company_contact := d.getD 11 .nullV }

/-- A sqlite table: named columns and rows of cell values (one cell per
column). -/
structure DbTable where
  cols : List String
  rows : List (List DbValue)
  deriving DecidableEq, Repr

/-- The full current column set of the `invoices` table, in the order of
the `CREATE TABLE` statement (`src/main.py` lines 31-50). -/
def invoiceSchema : List String :=
  ["id", "invoice_number", "client_name", "client_address", "client_number", "description",
   "items", "subtotal", "tax", "total", "email", "company_name", "company_address",
   "company_contact", "date_added", "date"]

/-- The columns `init_db` tries to `ALTER TABLE ... ADD COLUMN`, in
source order (`src/main.py` lines 52-57). -/
def migrationCols : List String := ["date_added", "date", "client_address", "client_number"]

/-- One `ALTER TABLE invoices ADD COLUMN` attempt: sqlite raises
`OperationalError` when the column exists, which `init_db` swallows
(`src/main.py` lines 58-61), so an existing column is a no-op; a new
column is appended with `NULL` in every existing row. -/
def addColumnIfMissing (t : DbTable) (c : String) : DbTable :=
  if t.cols.contains c then t
  else { cols := t.cols ++ [c], rows := t.rows.map (fun row => row ++ [DbValue.nullV]) }

/-- Model of `init_db` (`src/main.py` lines 27-62): `CREATE TABLE IF NOT
EXISTS` (a no-op when the table exists, otherwise the fresh full
schema), then the four tolerated `ADD COLUMN` attempts. -/
def init_db (db : Option DbTable) : DbTable :=
  let t := match db with
    | none => { cols := invoiceSchema, rows := ([] : List (List DbValue)) }
    | some t0 => t0
  migrationCols.foldl addColumnIfMissing t

/-- A stored invoice row used as a concrete test fixture. -/
def demoRow : InvoiceRow :=
  { id := 1, invoice_number := "INV-1", client_name := "Acme", client_address := "12 Road",
    client_number := "555", description := "Roof work", items := "[]", subtotal := 500,
    tax := 0, total := 500, email := "a@b.c", company_name := "BuildSmart Construction Inc.",
    company_address := "123 Innovation Blvd, Suite 500", company_contact := "Toronto",
    date_added := "2025-01-01 10:00:00", date := "2025-01-05" }

/-- A submitted form used as a concrete test fixture: same invoice
number as `demoRow`, one valid item row, and the invoice date edited to
2025-06-01. -/
def demoForm : FormData :=
  { invoice_number := "INV-1", client_name := "Acme", client_address := "12 Road",
    client_number := "555", description := "Roof work", email := "a@b.c",
    date := "2025-06-01", company_name := "BuildSmart Construction Inc.",
    company_address := "123 Innovation Blvd, Suite 500", company_contact := "Toronto",
    rows := [{ desc := some "Labor", qty := some "10", price := some "50" }],
    taxText := "0" }

/-- A pre-upgrade `invoices` table (the column set without the four
migration columns) with one row, used as a concrete migration fixture. -/
def demoLegacyTable : DbTable :=
  { cols := ["id", "invoice_number", "client_name", "description", "items", "subtotal",
             "tax", "total", "email", "company_name", "company_address", "company_contact"],
    rows := [[.intV 1, .textV "INV-1", .textV "Acme", .textV "Roof work", .textV "[]",
              .realV 500, .realV 0, .realV 500, .textV "a@b.c", .textV "BS", .textV "addr",
              .textV "contact"]] }

/-- Printable-ASCII text: the domain on which `pyStrRepr` models Python
`repr` exactly (outside it `repr` would emit numeric escapes). -/
abbrev printableStr (s : String) : Prop :=
  ∀ c ∈ s.data, 32 ≤ c.toNat ∧ c.toNat ≤ 126

/-- A number the serializer prints faithfully: non-negative with a
terminating decimal expansion, the values `float()` produces from the
decimal grid cells. -/
abbrev serializableNum (q : ℚ) : Prop := 0 ≤ q ∧ (decScale? q).isSome = true

/-- A line item within the modelled serialization domain. -/
abbrev validItem (it : Item) : Prop :=
  printableStr it.1 ∧ serializableNum it.2.1 ∧ serializableNum it.2.2

/-- All items of a sequence lie within the modelled serialization domain. -/
abbrev validItems (items : List Item) : Prop := ∀ it ∈ items, validItem it

/-- The end-to-end example items of the spec (§8): Labor 10 × 50.0 and
Materials 5 × 20.0. -/
def demoItems : List Item := [("Labor", 10, 50), ("Materials", 5, 20)]

theorem totals_foldl (rows : List RawRow) :
    ∀ (s : ℚ) (its : List Item),
      rows.foldl totalsStep (s, its)
        = (s + sumAmounts (retainedItems rows), its ++ retainedItems rows) := by
  induction rows with
  | nil => intro s its; simp [retainedItems, sumAmounts]
  | cons r rows ih =>
    intro s its
    simp only [List.foldl_cons, retainedItems, List.filterMap_cons]
    rcases r with ⟨d, q, p⟩
    rcases d with _ | d <;> rcases q with _ | qs <;> rcases p with _ | ps <;>
      simp only [totalsStep]
    case some.some.some =>
      rcases hq : pyFloat qs with _ | q <;> rcases hp : pyFloat ps with _ | p <;>
        simp only [hq, hp] <;> rw [ih] <;>
        simp [retainedItems, sumAmounts, add_assoc]
    all_goals rw [ih]; rfl

/-- C1. For every item grid and tax text, `calculate_totals` returns a
subtotal equal to the sum of `quantity * unit_price` over exactly the
retained items, a tax equal to `subtotal * (tax_rate / 100)` for the
parsed tax rate, and a total equal to `subtotal + tax`. -/
theorem calculate_totals_arithmetic (rows : List RawRow) (taxText : String) :
    (calculate_totals rows taxText).2.1
        = sumAmounts (calculate_totals rows taxText).1 ∧
    (calculate_totals rows taxText).2.2.1
        = (calculate_totals rows taxText).2.1 * (parsedTaxRate taxText / 100) ∧
    (calculate_totals rows taxText).2.2.2
        = (calculate_totals rows taxText).2.1 + (calculate_totals rows taxText).2.2.1 := by
  simp only [calculate_totals, totals_foldl rows 0 []]
  simp

/-- C7. The Totals Calculator retains exactly the grid rows in which all
three cells are present and both quantity and unit price parse as
numbers; every other row is dropped from the returned item list and from
the subtotal, and the remaining valid rows still compute correctly.  The
function is total, so it always returns a result and never an error. -/
theorem calculate_totals_filtering (rows : List RawRow) (taxText : String) :
    (calculate_totals rows taxText).1 = retainedItems rows ∧
    (calculate_totals rows taxText).2.1 = sumAmounts (retainedItems rows) := by
  simp only [calculate_totals, totals_foldl rows 0 []]
  simp

theorem natDigitsAux_zero (fuel : ℕ) : natDigitsAux fuel 0 = [] := by
  cases fuel <;> rfl

theorem natDigitsAux_congr :
    ∀ f1 f2 n : ℕ, n ≤ f1 → n ≤ f2 → natDigitsAux f1 n = natDigitsAux f2 n := by
  intro f1
  induction f1 with
  | zero =>
    intro f2 n h1 _
    interval_cases n
    simp [natDigitsAux_zero]
  | succ f1 ih =>
    intro f2 n h1 h2
    cases n with
    | zero => simp [natDigitsAux_zero]
    | succ m =>
      cases f2 with
      | zero => omega
      | succ f2 =>
        have hd : (m + 1) / 10 < m + 1 := Nat.div_lt_self (Nat.succ_pos m) (by norm_num)
        show (m + 1) % 10 :: natDigitsAux f1 ((m + 1) / 10)
            = (m + 1) % 10 :: natDigitsAux f2 ((m + 1) / 10)
        rw [ih f2 ((m + 1) / 10) (by omega) (by omega)]

theorem natDigits_cons (n : ℕ) (h : n ≠ 0) :
    natDigits n = n % 10 :: natDigits (n / 10) := by
  unfold natDigits
  cases n with
  | zero => exact absurd rfl h
  | succ m =>
    have hd : (m + 1) / 10 < m + 1 := Nat.div_lt_self (Nat.succ_pos m) (by norm_num)
    show (m + 1) % 10 :: natDigitsAux m ((m + 1) / 10) = _
    rw [natDigitsAux_congr m ((m + 1) / 10) ((m + 1) / 10) (by omega) le_rfl]

theorem ofDigitsLE_natDigits (n : ℕ) : ofDigitsLE (natDigits n) = n := by
  induction n using Nat.strong_induction_on with
  | _ n ih =>
    by_cases h : n = 0
    · subst h; rfl
    · rw [natDigits_cons n h]
      have hd : n / 10 < n := Nat.div_lt_self (Nat.pos_of_ne_zero h) (by norm_num)
      show n % 10 + 10 * ofDigitsLE (natDigits (n / 10)) = n
      rw [ih (n / 10) hd]
      omega

theorem natDigits_lt_ten : ∀ (n d : ℕ), d ∈ natDigits n → d < 10 := by
  intro n
  induction n using Nat.strong_induction_on with
  | _ n ih =>
    intro d hd
    by_cases h : n = 0
    · subst h; simp [natDigits, natDigitsAux] at hd
    · rw [natDigits_cons n h] at hd
      rcases List.mem_cons.mp hd with h1 | h1
      · subst h1; exact Nat.mod_lt n (by norm_num)
      · exact ih (n / 10) (Nat.div_lt_self (Nat.pos_of_ne_zero h) (by norm_num)) d h1

theorem natDigits_length_le : ∀ (k n : ℕ), n < 10 ^ k → (natDigits n).length ≤ k := by
  intro k
  induction k with
  | zero =>
    intro n h
    interval_cases n
    simp [natDigits, natDigitsAux]
  | succ k ih =>
    intro n h
    by_cases h0 : n = 0
    · subst h0; simp [natDigits, natDigitsAux]
    · rw [natDigits_cons n h0]
      have : n / 10 < 10 ^ k := by
        rw [Nat.div_lt_iff_lt_mul (by norm_num)]
        calc n < 10 ^ (k + 1) := h
          _ = 10 ^ k * 10 := by ring
      simpa using ih (n / 10) this

theorem digitChar_isDigit {d : ℕ} (h : d < 10) : (Nat.digitChar d).isDigit = true := by
  interval_cases d <;> decide

theorem charDigit_digitChar {d : ℕ} (h : d < 10) : charDigit (Nat.digitChar d) = d := by
  interval_cases d <;> decide

theorem digitsVal_foldl :
    ∀ (cs : List Char) (a : ℕ),
      cs.foldl (fun a c => a * 10 + charDigit c) a = a * 10 ^ cs.length + digitsVal cs := by
  intro cs
  induction cs with
  | nil => intro a; simp [digitsVal]
  | cons c cs ih =>
    intro a
    show cs.foldl _ (a * 10 + charDigit c) = _
    rw [ih (a * 10 + charDigit c)]
    have hv : digitsVal (c :: cs) = charDigit c * 10 ^ cs.length + digitsVal cs := by
      show cs.foldl _ (0 * 10 + charDigit c) = _
      rw [ih (0 * 10 + charDigit c)]
      ring_nf
    rw [hv]
    simp [List.length_cons]
    ring

theorem digitsVal_append (xs ys : List Char) :
    digitsVal (xs ++ ys) = digitsVal xs * 10 ^ ys.length + digitsVal ys := by
  unfold digitsVal
  rw [List.foldl_append, digitsVal_foldl ys (List.foldl _ 0 xs)]
  rfl

theorem digitsVal_bigChars :
    ∀ ds : List ℕ, (∀ d ∈ ds, d < 10) →
      digitsVal ((ds.map Nat.digitChar).reverse) = ofDigitsLE ds := by
  intro ds
  induction ds with
  | nil => intro _; rfl
  | cons d ds ih =>
    intro h
    have hrev : ((d :: ds).map Nat.digitChar).reverse
        = (ds.map Nat.digitChar).reverse ++ [Nat.digitChar d] := by
      simp
    rw [hrev, digitsVal_append]
    have h1 : digitsVal [Nat.digitChar d] = d := by
      show 0 * 10 + charDigit (Nat.digitChar d) = d
      rw [charDigit_digitChar (h d (by simp))]
      omega
    rw [h1, ih (fun e he => h e (by simp [he]))]
    show ofDigitsLE ds * 10 ^ 1 + d = d + 10 * ofDigitsLE ds
    ring

theorem digitsVal_natChars (n : ℕ) : digitsVal (natChars n) = n := by
  by_cases h : n = 0
  · subst h; decide
  · unfold natChars
    rw [if_neg h, digitsVal_bigChars (natDigits n) (natDigits_lt_ten n),
      ofDigitsLE_natDigits]

theorem natChars_isDigit (n : ℕ) : ∀ c ∈ natChars n, c.isDigit = true := by
  by_cases h : n = 0
  · subst h; decide
  · unfold natChars
    rw [if_neg h]
    intro c hc
    rw [List.mem_reverse, List.mem_map] at hc
    obtain ⟨d, hd, rfl⟩ := hc
    exact digitChar_isDigit (natDigits_lt_ten n d hd)

theorem natChars_ne_nil (n : ℕ) : natChars n ≠ [] := by
  by_cases h : n = 0
  · subst h; decide
  · unfold natChars
    rw [if_neg h, natDigits_cons n h]
    simp

theorem takeDigits_append :
    ∀ (ds rest : List Char), (∀ c ∈ ds, c.isDigit = true) →
      (∀ c, rest.head? = some c → c.isDigit = false) →
      takeDigits (ds ++ rest) = (ds, rest) := by
  intro ds
  induction ds with
  | nil =>
    intro rest _ hrest
    cases rest with
    | nil => rfl
    | cons c r =>
      show takeDigits (c :: r) = ([], c :: r)
      unfold takeDigits
      rw [hrest c rfl]
      simp
  | cons c ds ih =>
    intro rest hds hrest
    show takeDigits (c :: (ds ++ rest)) = (c :: ds, rest)
    unfold takeDigits
    rw [hds c (by simp), ih rest (fun e he => hds e (by simp [he])) hrest]
    simp

theorem ofDigitsLE_append_zeros :
    ∀ (ds : List ℕ) (j : ℕ), ofDigitsLE (ds ++ List.replicate j 0) = ofDigitsLE ds := by
  intro ds
  induction ds with
  | nil =>
    intro j
    induction j with
    | zero => rfl
    | succ j ihj =>
      show (0 : ℕ) + 10 * ofDigitsLE (List.replicate j 0) = 0
      simp only [List.nil_append] at ihj
      rw [ihj]
      decide
  | cons d ds ih =>
    intro j
    show d + 10 * ofDigitsLE (ds ++ List.replicate j 0) = d + 10 * ofDigitsLE ds
    rw [ih j]

theorem padDigits_length {k m : ℕ} (h : m < 10 ^ k) : (padDigits k m).length = k := by
  unfold padDigits
  have hle := natDigits_length_le k m h
  simp [List.length_replicate]
  omega

theorem padDigits_val {k m : ℕ} (_h : m < 10 ^ k) : digitsVal (padDigits k m) = m := by
  unfold padDigits
  rw [digitsVal_bigChars]
  · rw [ofDigitsLE_append_zeros, ofDigitsLE_natDigits]
  · intro d hd
    rcases List.mem_append.mp hd with h1 | h1
    · exact natDigits_lt_ten m d h1
    · rw [List.eq_of_mem_replicate h1]; norm_num

theorem padDigits_isDigit (k m : ℕ) : ∀ c ∈ padDigits k m, c.isDigit = true := by
  unfold padDigits
  intro c hc
  rw [List.mem_reverse, List.mem_map] at hc
  obtain ⟨d, hd, rfl⟩ := hc
  apply digitChar_isDigit
  rcases List.mem_append.mp hd with h1 | h1
  · exact natDigits_lt_ten m d h1
  · rw [List.eq_of_mem_replicate h1]; norm_num

theorem decScale?_mem {q : ℚ} {k : ℕ} (h : decScale? q = some k) :
    1 ≤ k ∧ q.den ∣ 10 ^ k := by
  unfold decScale? at h
  have hmem := List.mem_of_find?_eq_some h
  have hpred := List.find?_some h
  constructor
  · rw [List.mem_map] at hmem
    obtain ⟨i, _, rfl⟩ := hmem
    omega
  · exact Nat.dvd_of_mod_eq_zero (by simpa using hpred)

theorem parseUFloat_pyFloatRepr (q : ℚ) (h0 : 0 ≤ q) {k : ℕ} (hk : decScale? q = some k)
    (rest : List Char) (hrest : ∀ c, rest.head? = some c → c.isDigit = false) :
    parseUFloat ((pyFloatRepr q).data ++ rest) = some (q, rest) := by
  obtain ⟨hk1, hdvd⟩ := decScale?_mem hk
  have hdpos : 0 < q.den := q.pos
  have hpow : 0 < 10 ^ k := Nat.pos_pow_of_pos k (by norm_num)
  set n := q.num.toNat * (10 ^ k / q.den) with hn
  have hdata : (pyFloatRepr q).data
      = natChars (n / 10 ^ k) ++ dotChar :: padDigits k (n % 10 ^ k) := by
    unfold pyFloatRepr
    rw [hk]
  rw [hdata]
  have hassoc : (natChars (n / 10 ^ k) ++ dotChar :: padDigits k (n % 10 ^ k)) ++ rest
      = natChars (n / 10 ^ k) ++ (dotChar :: (padDigits k (n % 10 ^ k) ++ rest)) := by
    simp
  rw [hassoc]
  have hmod : n % 10 ^ k < 10 ^ k := Nat.mod_lt n hpow
  have htd1 : takeDigits (natChars (n / 10 ^ k) ++ (dotChar :: (padDigits k (n % 10 ^ k) ++ rest)))
      = (natChars (n / 10 ^ k), dotChar :: (padDigits k (n % 10 ^ k) ++ rest)) :=
    takeDigits_append _ _ (natChars_isDigit _)
      (by intro c hc; rw [List.head?_cons] at hc; cases hc; decide)
  have htd2 : takeDigits (padDigits k (n % 10 ^ k) ++ rest)
      = (padDigits k (n % 10 ^ k), rest) :=
    takeDigits_append _ _ (padDigits_isDigit _ _) hrest
  have hpadne : padDigits k (n % 10 ^ k) ≠ [] := by
    intro he
    have := padDigits_length hmod
    rw [he] at this
    simp at this
    omega
  unfold parseUFloat
  rw [htd1]
  simp only [if_neg (natChars_ne_nil (n / 10 ^ k)), if_true]
  rw [htd2]
  simp only [if_neg hpadne]
  congr 1
  rw [Prod.ext_iff]
  refine ⟨?_, rfl⟩
  rw [digitsVal_natChars, padDigits_val hmod, padDigits_length hmod]
  have hnum0 : 0 ≤ q.num := Rat.num_nonneg.mpr h0
  have hmul : n * q.den = q.num.toNat * 10 ^ k := by
    rw [hn, mul_assoc, Nat.div_mul_cancel hdvd]
  have hdenQ : ((q.den : ℚ)) ≠ 0 := by
    exact_mod_cast hdpos.ne.symm
  have hq : (n : ℚ) = q * 10 ^ k := by
    have hcast : (n : ℚ) * (q.den : ℚ) = (q.num.toNat : ℚ) * (10 : ℚ) ^ k := by
      exact_mod_cast congrArg (fun m : ℕ => (m : ℚ)) hmul
    have htn : ((q.num.toNat : ℚ)) = ((q.num : ℤ) : ℚ) := by
      exact_mod_cast congrArg (fun z : ℤ => (z : ℚ)) (Int.toNat_of_nonneg hnum0)
    have hqd : q * (q.den : ℚ) = (q.num : ℚ) := by
      nth_rewrite 1 [← Rat.num_div_den q]
      exact div_mul_cancel₀ _ hdenQ
    have : (n : ℚ) * (q.den : ℚ) = q * (10 : ℚ) ^ k * (q.den : ℚ) := by
      rw [hcast]
      rw [htn, ← hqd]
      ring
    exact mul_right_cancel₀ hdenQ this
  have hpowQ : ((10 : ℚ)) ^ k ≠ 0 := by positivity
  have hdm : (n / 10 ^ k) * 10 ^ k + n % 10 ^ k = n := by
    rw [Nat.mul_comm]
    exact Nat.div_add_mod n (10 ^ k)
  field_simp
  rw [← hq]
  exact_mod_cast congrArg (fun m : ℕ => (m : ℚ)) hdm

theorem parseStrBody_escaped (qc : Char) (hqc : qc = squote ∨ qc = dquote) :
    ∀ (cs rest : List Char),
      parseStrBody qc (cs.flatMap (escapeChar qc) ++ qc :: rest) = some (cs, rest) := by
  have hbq : ¬ bslash = qc := by
    rcases hqc with h | h <;> subst h <;> decide
  intro cs
  induction cs with
  | nil =>
    intro rest
    show parseStrBody qc (qc :: rest) = some ([], rest)
    unfold parseStrBody
    rw [if_pos rfl]
  | cons c cs ih =>
    intro rest
    have hflat : (c :: cs).flatMap (escapeChar qc)
        = escapeChar qc c ++ cs.flatMap (escapeChar qc) := by
      simp
    rw [hflat]
    by_cases hc : c = bslash ∨ c = qc
    · have he : escapeChar qc c = [bslash, c] := by
        unfold escapeChar
        rw [if_pos hc]
      rw [he]
      have hshape : ([bslash, c] ++ cs.flatMap (escapeChar qc)) ++ qc :: rest
          = bslash :: c :: (cs.flatMap (escapeChar qc) ++ qc :: rest) := by
        simp
      rw [hshape]
      have hesc : (c = bslash ∨ c = squote ∨ c = dquote) := by
        rcases hc with h | h
        · left; exact h
        · rcases hqc with h2 | h2
          · right; left; rw [h, h2]
          · right; right; rw [h, h2]
      unfold parseStrBody
      rw [if_neg hbq, if_pos rfl]
      simp only [if_pos hesc, ih rest]
      rfl
    · push_neg at hc
      have he : escapeChar qc c = [c] := by
        unfold escapeChar
        rw [if_neg (by tauto)]
      rw [he]
      have hshape : ([c] ++ cs.flatMap (escapeChar qc)) ++ qc :: rest
          = c :: (cs.flatMap (escapeChar qc) ++ qc :: rest) := by
        simp
      rw [hshape]
      unfold parseStrBody
      rw [if_neg hc.2, if_neg hc.1]
      simp only [ih rest]
      rfl

theorem parseStrLit_pyStrRepr (s : String) (rest : List Char) :
    parseStrLit ((pyStrRepr s).data ++ rest) = some (s, rest) := by
  have hqc : reprQuote s = squote ∨ reprQuote s = dquote := by
    unfold reprQuote
    by_cases h : squote ∈ s.data ∧ ¬ dquote ∈ s.data
    · rw [if_pos h]; right; rfl
    · rw [if_neg h]; left; rfl
  have hdata : (pyStrRepr s).data
      = reprQuote s :: (s.data.flatMap (escapeChar (reprQuote s)) ++ [reprQuote s]) := rfl
  rw [hdata]
  have hshape :
      (reprQuote s :: (s.data.flatMap (escapeChar (reprQuote s)) ++ [reprQuote s])) ++ rest
        = reprQuote s :: (s.data.flatMap (escapeChar (reprQuote s)) ++ reprQuote s :: rest) := by
    simp
  rw [hshape]
  rw [show parseStrLit
        (reprQuote s :: (s.data.flatMap (escapeChar (reprQuote s)) ++ reprQuote s :: rest))
      = (if reprQuote s = squote ∨ reprQuote s = dquote then
          Option.map (fun p => ((⟨p.1⟩ : String), p.2))
            (parseStrBody (reprQuote s)
              (s.data.flatMap (escapeChar (reprQuote s)) ++ reprQuote s :: rest))
        else none) from rfl]
  rw [if_pos hqc]
  simp only [parseStrBody_escaped _ hqc s.data rest]
  rfl

theorem parseItem_pyItemRepr (it : Item) (h : validItem it) (rest : List Char) :
    parseItem ((pyItemRepr it).data ++ rest) = some (it, rest) := by
  obtain ⟨hpr, ⟨hq0, hqs⟩, hp0, hps⟩ := h
  obtain ⟨kq, hkq⟩ := Option.isSome_iff_exists.mp hqs
  obtain ⟨kp, hkp⟩ := Option.isSome_iff_exists.mp hps
  have h3 : parseUFloat ((pyFloatRepr it.2.2).data ++ rparen :: rest)
      = some (it.2.2, rparen :: rest) :=
    parseUFloat_pyFloatRepr _ hp0 hkp _
      (by intro c hc; rw [List.head?_cons] at hc; cases hc; decide)
  have h2 : parseUFloat ((pyFloatRepr it.2.1).data
        ++ comma :: spaceChar :: ((pyFloatRepr it.2.2).data ++ rparen :: rest))
      = some (it.2.1, comma :: spaceChar :: ((pyFloatRepr it.2.2).data ++ rparen :: rest)) :=
    parseUFloat_pyFloatRepr _ hq0 hkq _
      (by intro c hc; rw [List.head?_cons] at hc; cases hc; decide)
  have h1 : parseStrLit ((pyStrRepr it.1).data
        ++ comma :: spaceChar :: ((pyFloatRepr it.2.1).data
          ++ comma :: spaceChar :: ((pyFloatRepr it.2.2).data ++ rparen :: rest)))
      = some (it.1, comma :: spaceChar :: ((pyFloatRepr it.2.1).data
          ++ comma :: spaceChar :: ((pyFloatRepr it.2.2).data ++ rparen :: rest))) :=
    parseStrLit_pyStrRepr _ _
  have hdata : (pyItemRepr it).data ++ rest
      = lparen :: ((pyStrRepr it.1).data
          ++ comma :: spaceChar :: ((pyFloatRepr it.2.1).data
            ++ comma :: spaceChar :: ((pyFloatRepr it.2.2).data ++ rparen :: rest))) := by
    simp [pyItemRepr]
  rw [hdata]
  simp [parseItem, h1, h2, h3]

theorem parseItemList_itemsBody :
    ∀ (its : List Item), validItems its → its ≠ [] →
      ∀ (fuel : ℕ), its.length ≤ fuel + 1 →
      ∀ (rest : List Char),
        parseItemList fuel (itemsBody its ++ rbrack :: rest) = some (its, rest) := by
  intro its
  induction its with
  | nil => intro _ hne; exact absurd rfl hne
  | cons it its ih =>
    intro hv _ fuel hlen rest
    cases its with
    | nil =>
      show parseItemList fuel ((pyItemRepr it).data ++ rbrack :: rest) = some ([it], rest)
      unfold parseItemList
      rw [parseItem_pyItemRepr it (hv it (by simp)) (rbrack :: rest)]
      simp
    | cons it2 more =>
      have hshape : itemsBody (it :: it2 :: more) ++ rbrack :: rest
          = (pyItemRepr it).data
              ++ comma :: spaceChar :: (itemsBody (it2 :: more) ++ rbrack :: rest) := by
        show ((pyItemRepr it).data ++ comma :: spaceChar :: itemsBody (it2 :: more))
            ++ rbrack :: rest = _
        simp
      rw [hshape]
      unfold parseItemList
      rw [parseItem_pyItemRepr it (hv it (by simp))
        (comma :: spaceChar :: (itemsBody (it2 :: more) ++ rbrack :: rest))]
      cases fuel with
      | zero =>
        exfalso
        simp at hlen
      | succ fuel =>
        have hv2 : validItems (it2 :: more) := fun x hx => hv x (by simp [hx])
        have hrec : parseItemList fuel (itemsBody (it2 :: more) ++ rbrack :: rest)
            = some (it2 :: more, rest) :=
          ih hv2 (by simp) fuel (by simp at hlen ⊢; omega) rest
        simp [hrec]
        decide

theorem itemsBody_length :
    ∀ its : List Item, its.length ≤ (itemsBody its).length := by
  intro its
  induction its with
  | nil => simp [itemsBody]
  | cons it its ih =>
    have hrepr : 1 ≤ (pyItemRepr it).data.length := by
      have : (pyItemRepr it).data
          = lparen :: ((pyStrRepr it.1).data
              ++ comma :: spaceChar :: ((pyFloatRepr it.2.1).data
                ++ comma :: spaceChar :: ((pyFloatRepr it.2.2).data ++ [rparen]))) := by
        simp [pyItemRepr]
      rw [this]
      simp
    cases its with
    | nil =>
      show (1 : ℕ) ≤ ((pyItemRepr it).data).length
      exact hrepr
    | cons it2 more =>
      show (it2 :: more).length + 1
          ≤ ((pyItemRepr it).data ++ comma :: spaceChar :: itemsBody (it2 :: more)).length
      have := ih
      simp only [List.length_append, List.length_cons] at *
      omega

/-- C3. Deserializing the serialized items blob reproduces the original
item sequence: for every sequence of line items with printable
descriptions and non-negative, decimally-representable quantities and
prices (the values the grid produces), the `eval` of the stored
`str(items)` text yields the original sequence. -/
theorem deserialize_serialize_id (items : List Item) (h : validItems items) :
    deserializeItems (serializeItems items) = some items := by
  cases items with
  | nil => decide
  | cons it its =>
    have hdata : (serializeItems (it :: its)).data
        = lbrack :: (itemsBody (it :: its) ++ [rbrack]) := rfl
    have hhead : ∃ t, itemsBody (it :: its) = lparen :: t := by
      have hr : (pyItemRepr it).data
          = lparen :: ((pyStrRepr it.1).data
              ++ comma :: spaceChar :: ((pyFloatRepr it.2.1).data
                ++ comma :: spaceChar :: ((pyFloatRepr it.2.2).data ++ [rparen]))) := by
        simp [pyItemRepr]
      cases its with
      | nil => exact ⟨_, hr⟩
      | cons it2 more =>
        rw [show itemsBody (it :: it2 :: more)
            = (pyItemRepr it).data ++ comma :: spaceChar :: itemsBody (it2 :: more) from rfl, hr]
        exact ⟨_, rfl⟩
    obtain ⟨t, ht⟩ := hhead
    have hsplit : lparen :: (t ++ [rbrack]) = itemsBody (it :: its) ++ rbrack :: [] := by
      rw [ht]
      rfl
    have hparse : parseItemList (lparen :: (t ++ [rbrack])).length (lparen :: (t ++ [rbrack]))
        = some (it :: its, []) := by
      rw [hsplit]
      apply parseItemList_itemsBody (it :: its) h (by simp)
      have h1 := itemsBody_length (it :: its)
      simp only [List.length_append, List.length_cons] at *
      omega
    have hlp : ¬ lparen = rbrack := by decide
    simp only [deserializeItems, hdata, ht, List.cons_append, if_true]
    rw [if_neg hlp, hparse]
    simp

/-- Witness for C3 at the end-to-end example items of the spec. -/
theorem deserialize_serialize_id_witness :
    validItems demoItems ∧ deserializeItems (serializeItems demoItems) = some demoItems :=
  ⟨by decide, deserialize_serialize_id demoItems (by decide)⟩

/-- C2. Both renderings of one stored record — the HTML preview of
`InvoiceViewer.__init__` and the PDF export of
`InvoiceViewer.print_invoice` — produce the same item rows (same count,
same description, quantity, price and amount cells) and the same
subtotal, tax and total figures, all monetary cells formatted to two
decimal places by the shared `fmt2`; and on an unparseable blob both
fail alike. -/
theorem preview_print_consistent (inv : ViewerRecord) :
    previewRender inv = printRender inv := rfl

/-- C4 fails on the code: a stored record whose items blob is not a
well-formed items literal makes `eval` raise inside
`InvoiceViewer.__init__` (`src/main.py` line 304) and inside
`print_invoice` (line 359); neither call site has a handler, so the
exception propagates out of the reader instead of being surfaced as a
recoverable per-record read error.  In the model the parse yields
`none` and both renderings are stuck with no error value to report. -/
theorem viewer_crashes_on_malformed_blob :
    deserializeItems "oops" = none ∧
    previewRender { items := "oops", subtotal := 0, tax := 0, total := 0 } = none ∧
    printRender { items := "oops", subtotal := 0, tax := 0, total := 0 } = none := by
  refine ⟨by decide, ?_, ?_⟩ <;>
    · show (deserializeItems "oops").map _ = none
      rw [show deserializeItems "oops" = none by decide]
      rfl

/-- C5. When the store already holds an invoice with the submitted
number and the submission is otherwise valid, the create path ends in
the distinct duplicate outcome (the specific `IntegrityError` handler,
not a generic failure), the store is unchanged (no partial write), and
exactly one record with that number remains. -/
theorem create_duplicate_rejected (store : Store) (f : FormData) (now today : String)
    (hnum : ¬ pyStrip f.invoice_number = "") (hname : ¬ pyStrip f.client_name = "")
    (hdesc : ¬ pyStrip f.description = "")
    (hitems : ¬ (calculate_totals f.rows f.taxText).1 = [])
    (hdup : store.any (fun r => r.invoice_number == pyStrip f.invoice_number) = true)
    (hone : (store.filter
        (fun r => r.invoice_number == pyStrip f.invoice_number)).length = 1) :
    save_invoice store f false now today = (.duplicate, store) ∧
    ((save_invoice store f false now today).2.filter
        (fun r => r.invoice_number == pyStrip f.invoice_number)).length = 1 := by
  have hmain : save_invoice store f false now today = (.duplicate, store) := by
    simp only [save_invoice]
    rw [if_neg (by simp [hnum, hname, hdesc]), if_neg hitems]
    simp only [Bool.false_eq_true, if_false, if_pos hdup]
  exact ⟨hmain, by rw [hmain]; exact hone⟩

/-- Witness for C5: a store holding `demoRow` rejects a second create
with the same invoice number and keeps exactly that one row. -/
theorem create_duplicate_rejected_witness :
    save_invoice [demoRow] demoForm false "2025-06-02 09:00:00" "2025-06-02"
        = (.duplicate, [demoRow]) ∧
    ((save_invoice [demoRow] demoForm false "2025-06-02 09:00:00" "2025-06-02").2.filter
        (fun r => r.invoice_number == pyStrip demoForm.invoice_number)).length = 1 :=
  create_duplicate_rejected [demoRow] demoForm "2025-06-02 09:00:00" "2025-06-02"
    (by decide) (by decide) (by decide) (by decide) (by decide) (by decide)

/-- C6 fails on the code: an edit does recompute the totals, but the
`UPDATE` of `src/main.py` lines 599-602 binds the submitted invoice
date into the `date_added` placeholder, so `date_added` does not stay
unchanged.  At this input the stored creation timestamp
`2025-01-01 10:00:00` is overwritten with the submitted invoice date
`2025-06-01`. -/
theorem update_overwrites_date_added :
    ((save_invoice [demoRow] demoForm true "2025-06-02 09:00:00" "2025-06-02").2.map
        (fun r => r.date_added)) = ["2025-06-01"] ∧
    demoRow.date_added = "2025-01-01 10:00:00" ∧
    ¬ ("2025-06-01" = "2025-01-01 10:00:00") := by
  decide

/-- C8 fails on the code: `open_invoice_details` indexes the `SELECT *`
tuple with the column positions of the pre-upgrade schema, so on a
store created by this program's own `CREATE TABLE` the dictionary is
shifted — `description` receives the `client_address` cell, `items`
the `client_number` cell, `subtotal` the `description` cell — and the
`client_address`, `client_number`, `date_added` and `date` columns are
dropped entirely.  The `NotFound` half of the claim does hold: a
missing id takes the warning path. -/
theorem get_by_id_misaligned :
    (open_invoice_details [demoRow] 1).map (fun v => v.description)
        = some (.textV demoRow.client_address) ∧
    (open_invoice_details [demoRow] 1).map (fun v => v.items)
        = some (.textV demoRow.client_number) ∧
    (open_invoice_details [demoRow] 1).map (fun v => v.subtotal)
        = some (.textV demoRow.description) ∧
    ¬ demoRow.client_address = demoRow.description ∧
    open_invoice_details [demoRow] 2 = none := by
  decide

theorem addCols_mem_preserved (cs : List String) :
    ∀ (t : DbTable) (c : String), c ∈ t.cols →
      c ∈ (cs.foldl addColumnIfMissing t).cols := by
  induction cs with
  | nil => intro t c h; exact h
  | cons d cs ih =>
    intro t c h
    apply ih
    unfold addColumnIfMissing
    by_cases hd : t.cols.contains d
    · rw [if_pos hd]; exact h
    · rw [if_neg hd]; exact List.mem_append_left _ h

theorem addCols_adds (cs : List String) :
    ∀ (t : DbTable), ∀ c ∈ cs, c ∈ (cs.foldl addColumnIfMissing t).cols := by
  induction cs with
  | nil => intro t c h; simp at h
  | cons d cs ih =>
    intro t c hc
    rcases List.mem_cons.mp hc with rfl | hc
    · show c ∈ (cs.foldl addColumnIfMissing (addColumnIfMissing t c)).cols
      apply addCols_mem_preserved
      unfold addColumnIfMissing
      by_cases hd : t.cols.contains c
      · rw [if_pos hd]; exact List.mem_of_elem_eq_true hd
      · rw [if_neg hd]; exact List.mem_append_right _ (by simp)
    · show c ∈ (cs.foldl addColumnIfMissing (addColumnIfMissing t d)).cols
      exact ih _ c hc

theorem addCols_noop (cs : List String) :
    ∀ (t : DbTable), (∀ c ∈ cs, c ∈ t.cols) → cs.foldl addColumnIfMissing t = t := by
  induction cs with
  | nil => intro t _; rfl
  | cons d cs ih =>
    intro t h
    have hd : t.cols.contains d := List.elem_eq_true_of_mem (h d (by simp))
    show cs.foldl addColumnIfMissing (addColumnIfMissing t d) = t
    unfold addColumnIfMissing
    rw [if_pos hd]
    exact ih t (fun c hc => h c (by simp [hc]))

theorem addCols_nodup (cs : List String) :
    ∀ (t : DbTable), t.cols.Nodup → (cs.foldl addColumnIfMissing t).cols.Nodup := by
  induction cs with
  | nil => intro t h; exact h
  | cons d cs ih =>
    intro t h
    apply ih
    unfold addColumnIfMissing
    by_cases hd : t.cols.contains d
    · rw [if_pos hd]; exact h
    · rw [if_neg hd]
      have hdn : d ∉ t.cols := fun hmem => hd (List.elem_eq_true_of_mem hmem)
      simp [List.nodup_append, h, hdn]

theorem addCols_rows (cs : List String) :
    ∀ (t : DbTable), cs.Nodup →
      (cs.foldl addColumnIfMissing t).rows
        = t.rows.map (fun row =>
            row ++ List.replicate
              (cs.filter (fun c => ! t.cols.contains c)).length DbValue.nullV) := by
  induction cs with
  | nil => intro t _; simp
  | cons d cs ih =>
    intro t hnd
    have hd1 : d ∉ cs := (List.nodup_cons.mp hnd).1
    have hd2 : cs.Nodup := (List.nodup_cons.mp hnd).2
    show (cs.foldl addColumnIfMissing (addColumnIfMissing t d)).rows = _
    by_cases hd : t.cols.contains d
    · have hstep : addColumnIfMissing t d = t := by
        unfold addColumnIfMissing
        rw [if_pos hd]
      rw [hstep, ih t hd2]
      have hfil : (d :: cs).filter (fun c => ! t.cols.contains c)
          = cs.filter (fun c => ! t.cols.contains c) := by
        rw [List.filter_cons]
        simp only [hd, Bool.not_true, Bool.false_eq_true, if_false]
      rw [hfil]
    · have hstep : addColumnIfMissing t d
          = { cols := t.cols ++ [d], rows := t.rows.map (fun row => row ++ [DbValue.nullV]) } := by
        unfold addColumnIfMissing
        rw [if_neg hd]
      rw [hstep, ih _ hd2]
      have hfil2 : cs.filter (fun c => ! (t.cols ++ [d]).contains c)
          = cs.filter (fun c => ! t.cols.contains c) := by
        apply List.filter_congr
        intro c hc
        have hne : ¬ c = d := fun he => hd1 (he ▸ hc)
        have : ((t.cols ++ [d]).contains c) = (t.cols.contains c) := by
          simp
          intro he
          exact absurd he hne
        rw [this]
      have hfil3 : (d :: cs).filter (fun c => ! t.cols.contains c)
          = d :: cs.filter (fun c => ! t.cols.contains c) := by
        have hfalse : t.cols.contains d = false := Bool.eq_false_iff.mpr hd
        rw [List.filter_cons, hfalse]
        simp
      rw [List.map_map]
      rw [hfil2, hfil3]
      apply List.map_congr_left
      intro row _
      show (row ++ [DbValue.nullV]) ++ _ = _
      rw [List.append_assoc]
      congr 1

/-- C9. The migration is idempotent and additive: running `init_db` on
an existing table never fails (the "column exists" condition is
swallowed); a second run is exactly the first run's result; the column
list stays duplicate-free; every pre-existing row keeps its values and
is only padded with `NULL` cells for the freshly added columns; and on
a table that already has every migration column it is a no-op. -/
theorem init_db_idempotent (t : DbTable) (hnd : t.cols.Nodup) :
    init_db (some (init_db (some t))) = init_db (some t) ∧
    (init_db (some t)).cols.Nodup ∧
    (init_db (some t)).rows = t.rows.map (fun row =>
      row ++ List.replicate
        (migrationCols.filter (fun c => ! t.cols.contains c)).length DbValue.nullV) ∧
    ((∀ c ∈ migrationCols, c ∈ t.cols) → init_db (some t) = t) := by
  refine ⟨?_, ?_, ?_, ?_⟩
  · show migrationCols.foldl addColumnIfMissing (migrationCols.foldl addColumnIfMissing t) = _
    exact addCols_noop migrationCols _ (addCols_adds migrationCols t)
  · exact addCols_nodup migrationCols t hnd
  · exact addCols_rows migrationCols t (by decide)
  · intro h
    exact addCols_noop migrationCols t h

/-- Witness for C9 at the pre-upgrade fixture table. -/
theorem init_db_idempotent_witness :
    init_db (some (init_db (some demoLegacyTable))) = init_db (some demoLegacyTable) ∧
    (init_db (some demoLegacyTable)).cols.Nodup ∧
    (init_db (some demoLegacyTable)).rows = demoLegacyTable.rows.map (fun row =>
      row ++ List.replicate
        (migrationCols.filter
          (fun c => ! demoLegacyTable.cols.contains c)).length DbValue.nullV) ∧
    ((∀ c ∈ migrationCols, c ∈ demoLegacyTable.cols) → init_db (some demoLegacyTable) = demoLegacyTable) :=
  init_db_idempotent demoLegacyTable (by decide)

/-- C10. An edit never writes the `date` column: every row keeps its
stored invoice date, and the submitted date lands in the `date_added`
column of the edited row instead — it is bound to the `date_added`
placeholder of the `UPDATE` (`src/main.py` lines 599-602, with the
trimmed-or-today value of line 580). -/
theorem update_date_frame (store : Store) (f : FormData) (now today : String)
    (hnum : ¬ pyStrip f.invoice_number = "") (hname : ¬ pyStrip f.client_name = "")
    (hdesc : ¬ pyStrip f.description = "")
    (hitems : ¬ (calculate_totals f.rows f.taxText).1 = []) :
    ((save_invoice store f true now today).2.map (fun r => r.date))
        = store.map (fun r => r.date) ∧
    ∀ r ∈ (save_invoice store f true now today).2,
      r.invoice_number = pyStrip f.invoice_number →
        r.date_added = (if pyStrip f.date = "" then today else pyStrip f.date) := by
  have hsave : save_invoice store f true now today
      = (.updated, store.map (fun r =>
          if r.invoice_number = pyStrip f.invoice_number then
            { r with
              client_name := pyStrip f.client_name,
              client_address := pyStrip f.client_address,
              client_number := pyStrip f.client_number,
              description := pyStrip f.description,
              items := serializeItems (calculate_totals f.rows f.taxText).1,
              subtotal := (calculate_totals f.rows f.taxText).2.1,
              tax := (calculate_totals f.rows f.taxText).2.2.1,
              total := (calculate_totals f.rows f.taxText).2.2.2,
              email := pyStrip f.email,
              company_name := pyStrip f.company_name,
              company_address := pyStrip f.company_address,
              company_contact := pyStrip f.company_contact,
              date_added := if pyStrip f.date = "" then today else pyStrip f.date }
          else r)) := by
    simp only [save_invoice]
    rw [if_neg (by simp [hnum, hname, hdesc]), if_neg hitems]
    simp only [if_true]
  constructor
  · rw [hsave]
    simp only [List.map_map]
    apply List.map_congr_left
    intro r _
    by_cases hm : r.invoice_number = pyStrip f.invoice_number <;> simp [hm]
  · intro r hr hmatch
    rw [hsave] at hr
    obtain ⟨r0, hr0, rfl⟩ := List.mem_map.mp hr
    by_cases hm : r0.invoice_number = pyStrip f.invoice_number
    · rw [if_pos hm]
    · rw [if_neg hm] at hmatch
      exact absurd hmatch hm

/-- Witness for C10 at the concrete edit of `demoForm`: the stored date
stays `2025-01-05` while `date_added` becomes the submitted
`2025-06-01`. -/
theorem update_date_frame_witness :
    ((save_invoice [demoRow] demoForm true "2025-06-02 09:00:00" "2025-06-02").2.map
        (fun r => r.date)) = [demoRow].map (fun r => r.date) ∧
    ∀ r ∈ (save_invoice [demoRow] demoForm true "2025-06-02 09:00:00" "2025-06-02").2,
      r.invoice_number = pyStrip demoForm.invoice_number →
        r.date_added = (if pyStrip demoForm.date = "" then "2025-06-02"
          else pyStrip demoForm.date) :=
  update_date_frame [demoRow] demoForm "2025-06-02 09:00:00" "2025-06-02"
    (by decide) (by decide) (by decide) (by decide)
